import Mathlib

set_option linter.unusedVariables false

/-!
Verification of the SpeakWithAI voice-form pipeline.

The development shallowly embeds the TypeScript sources:
* `src/app/api/sanitize/route.ts` — rate-limit controller (`isRateLimited`,
  `handleRateLimit`, `handleSuccessfulRequest`), the per-field text cleaner
  `basicTextCleaning`, the regex fallback `processWithRegex`, and the two
  HTTP handlers `POST` and `PATCH`;
* `src/app/components/VoiceInput.tsx` — the local intent analyzer
  `analyzeVoiceInput`, the client orchestration `processVoiceInput`, and the
  speech-recognition error handler;
* the page component — the submit-intent branch of `handleVoiceInput`.

JavaScript strings are modelled as `List Char` (ASCII inputs), timestamps and
the jitter multiplier as `ℚ`, and the JS regexes used by the code are embedded
as explicit leftmost-greedy backtracking matchers over character-class atoms.
Confidence values (0.7, 0.8, 0.9, 0.95 in the sources) are stored scaled by
100 as naturals (70, 80, 90, 95) so that concrete runs of the pipeline reduce
inside the kernel.
-/

namespace VoicePipeline

/-! ## Characters, whitespace, trimming -/

/-- JS `\s` / `String.trim` whitespace, restricted to the ASCII whitespace
characters recognised by `Char.isWhitespace`. -/
def isWS (c : Char) : Bool := c.isWhitespace

/-- JS word character `\w` = `[A-Za-z0-9_]`. -/
def isWordChar (c : Char) : Bool := c.isAlphanum || c = '_'

/-- JS `String.prototype.trim`: drop whitespace from both ends. -/
def trimList (cs : List Char) : List Char :=
  ((cs.dropWhile isWS).reverse.dropWhile isWS).reverse

/-- JS `String.prototype.toLowerCase` on ASCII text. -/
def lower (cs : List Char) : List Char := cs.map Char.toLower

/-! ## Rate-limit controller (`src/app/api/sanitize/route.ts`, lines 7-71) -/

/-- The module-level `rateLimitState` record. -/
structure RateLimitState where
  lastRequestTime : ℚ
  consecutiveErrors : ℕ
  backoffMs : ℚ
  inCooldown : Bool
deriving DecidableEq, Repr

/-- The initial value of `rateLimitState` (lines 15-20). -/
def initialRateLimitState : RateLimitState :=
  { lastRequestTime := 0, consecutiveErrors := 0, backoffMs := 1000, inCooldown := false }

/-- `isRateLimited()` (lines 23-40).  `Date.now()` is passed explicitly as
`now`; the function returns its boolean result together with the possibly
updated state (it clears `inCooldown` when the cooldown has expired). -/
def isRateLimited (now : ℚ) (s : RateLimitState) : Bool × RateLimitState :=
  if s.inCooldown then
    if s.backoffMs < now - s.lastRequestTime then
      (false, { s with inCooldown := false })
    else
      (true, s)
  else
    (false, s)

/-- `handleRateLimit()` (lines 43-59).  The jitter `0.5 + Math.random()` is
passed explicitly as `jitter`. -/
def handleRateLimit (now jitter : ℚ) (s : RateLimitState) : RateLimitState :=
  { s with
    consecutiveErrors := s.consecutiveErrors + 1
    backoffMs := min 30000 (s.backoffMs * 2 * jitter)
    lastRequestTime := now
    inCooldown := true }

/-- `handleSuccessfulRequest()` (lines 61-71). -/
def handleSuccessfulRequest (now : ℚ) (s : RateLimitState) : RateLimitState :=
  let s1 :=
    if s.consecutiveErrors > 0 then
      { s with consecutiveErrors := 0, backoffMs := 1000 }
    else s
  { s1 with lastRequestTime := now }

/-- One observable operation on the shared rate-limit state. -/
inductive RLOp
  | check (now : ℚ)
  | failure (now jitter : ℚ)
  | success (now : ℚ)
deriving DecidableEq, Repr

/-- Apply one operation to the state (`check` is `isRateLimited`, including
its `inCooldown`-clearing side effect). -/
def applyOp (s : RateLimitState) : RLOp → RateLimitState
  | .check now => (isRateLimited now s).2
  | .failure now j => handleRateLimit now j s
  | .success now => handleSuccessfulRequest now s

/-- Run a sequence of operations from a state. -/
def runOps (s : RateLimitState) : List RLOp → RateLimitState
  | [] => s
  | op :: ops => runOps (applyOp s op) ops

/-- A `failure` operation carries a jitter in `[1/2, 3/2)`, the range of
`0.5 + Math.random()`. -/
def opJitterOK : RLOp → Bool
  | .failure _ j => decide ((1 : ℚ)/2 ≤ j) && decide (j < 3/2)
  | _ => true

/-! ## Whole-word search

The submit / clear intent regexes of the sources all have the shape
`\b(w1|w2|...)\b` with `/i` and are only ever used through `.test`.  They are
embedded as a direct scan: at every position of the (pre-lowercased) text, a
word from the list must occur, preceded and followed by a non-word character
or a text edge.  All listed words start and end with word characters, so the
two `\b` assertions reduce to exactly these two conditions. -/

/-- Word-character status of the character left of the current position
(`none` = text edge, which is non-word for `\b`). -/
def wordOpt : Option Char → Bool
  | none => false
  | some c => isWordChar c

/-- `w` occurs at the head of `cs` and is followed by a non-word character or
the end of the text. -/
def boundedWordAt (w : List Char) (cs : List Char) : Bool :=
  w.isPrefixOf cs && !wordOpt ((cs.drop w.length).head?)

/-- Scan `cs` for a whole-word occurrence of any word in `ws`; `prev` is the
character immediately before `cs` in the full text. -/
def hasWordAux (ws : List (List Char)) (prev : Option Char) : List Char → Bool
  | [] => false
  | c :: cs =>
      (!wordOpt prev && ws.any (fun w => boundedWordAt w (c :: cs))) ||
        hasWordAux ws (some c) cs

/-- `/\b(w1|w2|...)\b/.test(text)` on pre-lowercased text. -/
def hasAnyWord (ws : List (List Char)) (cs : List Char) : Bool :=
  hasWordAux ws none cs

/-! ## A leftmost-greedy backtracking matcher for the character-class regexes

All remaining regexes in the sources are sequences (under top-level
alternation) of: single character classes, greedy `+` / `*` / `?` over a
character class, case-insensitive literals, and `\b` assertions.  They are
embedded as lists of `Atom`s and run with JS backtracking semantics:
alternatives are tried in order at each position, quantifiers consume
greedily and backtrack one character at a time, and the leftmost successful
position wins. -/

inductive Atom
  | one (p : Char → Bool)
  | many1 (p : Char → Bool)
  | many0 (p : Char → Bool)
  | opt (p : Char → Bool)
  | lit (s : List Char)
  | bnd

/-- Case-insensitive literal at the head of the text (`s` is given lowercase;
text characters are lowercased before comparison, embedding the `/i` flag). -/
def litAt : List Char → List Char → Bool
  | [], _ => true
  | _ :: _, [] => false
  | a :: s, c :: cs => (Char.toLower c == a) && litAt s cs

/-- The character preceding the rest of the text after consuming `pre`
(falling back to the previous `prev` when nothing was consumed). -/
def prevOf (prev : Option Char) (pre : List Char) : Option Char :=
  match pre.getLast? with
  | some c => some c
  | none => prev

/-- Candidate (consumed, rest) splits for a greedy quantifier that matched a
maximal run of `k` characters, in backtracking priority order: longest
first, down to one character, then (for `*`) the empty split. -/
def greedySplits (cs : List Char) : Nat → Bool → List (List Char × List Char)
  | 0, allowZero => if allowZero then [([], cs)] else []
  | k + 1, allowZero => (cs.take (k + 1), cs.drop (k + 1)) :: greedySplits cs k allowZero

/-- Match a sequence of atoms at the start of `cs` with backtracking,
returning the consumed segment of each atom (in order) on success.  `prev`
is the character immediately before `cs` in the full text (for `\b`).  Each
call consumes exactly one atom and one unit of `fuel`, so any
`fuel > atoms.length` makes the `0` case unreachable; structural recursion
on `fuel` keeps the function kernel-reducible. -/
def matchAtomsF : Nat → Option Char → List Atom → List Char → Option (List (List Char))
  | 0, _, _, _ => none
  | _ + 1, _, [], _ => some []
  | fuel + 1, prev, .bnd :: rest, cs =>
      if wordOpt prev != wordOpt cs.head? then
        (matchAtomsF fuel prev rest cs).map (fun segs => [] :: segs)
      else none
  | fuel + 1, prev, .one p :: rest, cs =>
      (match cs with
        | [] => none
        | c :: cs' =>
            if p c then (matchAtomsF fuel (some c) rest cs').map (fun segs => [c] :: segs)
            else none)
  | fuel + 1, prev, .lit s :: rest, cs =>
      if litAt s cs then
        (matchAtomsF fuel (prevOf prev (cs.take s.length)) rest (cs.drop s.length)).map
          (fun segs => cs.take s.length :: segs)
      else none
  | fuel + 1, prev, .opt p :: rest, cs =>
      (match cs with
        | [] => (matchAtomsF fuel prev rest []).map (fun segs => [] :: segs)
        | c :: cs' =>
            if p c then
              match matchAtomsF fuel (some c) rest cs' with
              | some segs => some ([c] :: segs)
              | none => (matchAtomsF fuel prev rest (c :: cs')).map (fun segs => [] :: segs)
            else (matchAtomsF fuel prev rest (c :: cs')).map (fun segs => [] :: segs))
  | fuel + 1, prev, .many1 p :: rest, cs =>
      (greedySplits cs ((cs.takeWhile p).length) false).findSome?
        (fun pr => (matchAtomsF fuel (prevOf prev pr.1) rest pr.2).map (fun segs => pr.1 :: segs))
  | fuel + 1, prev, .many0 p :: rest, cs =>
      (greedySplits cs ((cs.takeWhile p).length) true).findSome?
        (fun pr => (matchAtomsF fuel (prevOf prev pr.1) rest pr.2).map (fun segs => pr.1 :: segs))

/-- Match a full atom sequence, with enough fuel for every path. -/
def matchAtoms (prev : Option Char) (atoms : List Atom) (cs : List Char) :
    Option (List (List Char)) :=
  matchAtomsF (atoms.length + 1) prev atoms cs

/-- Leftmost search: try every alternative (in order) at every position,
left to right — the semantics of `text.match(re)` / `re.test(text)`. -/
def searchFrom (alts : List (List Atom)) (prev : Option Char) :
    List Char → Option (List (List Char))
  | [] => alts.findSome? (fun a => matchAtoms prev a [])
  | c :: cs =>
      match alts.findSome? (fun a => matchAtoms prev a (c :: cs)) with
      | some segs => some segs
      | none => searchFrom alts (some c) cs

/-- Search the whole text (no character precedes the first position). -/
def searchTop (alts : List (List Atom)) (cs : List Char) : Option (List (List Char)) :=
  searchFrom alts none cs

/-- `match[0]`: the full matched substring. -/
def fullMatch (segs : List (List Char)) : List Char := segs.flatten

/-- `match[1]` for the patterns below, whose single capture group is the
final atom of each alternative. -/
def lastSeg (segs : List (List Char)) : List Char := (segs.getLast?).getD []

/-! ## Character classes used by the source regexes -/

def isDigitC (c : Char) : Bool := c.isDigit

/-- `[-.\s]` — the optional phone separator class. -/
def isSep (c : Char) : Bool := c = '-' || c = '.' || isWS c

/-- `[a-zA-Z0-9._%+-]` — the email local-part class of `processWithRegex`. -/
def emailLocalChar (c : Char) : Bool :=
  c.isAlpha || c.isDigit || c = '.' || c = '_' || c = '%' || c = '+' || c = '-'

/-- `[a-zA-Z0-9.-]` — the email domain class of `processWithRegex`. -/
def emailDomChar (c : Char) : Bool := c.isAlpha || c.isDigit || c = '.' || c = '-'

/-- `[\w.-]` — the email classes of `basicTextCleaning`. -/
def wdhChar (c : Char) : Bool := isWordChar c || c = '.' || c = '-'

/-- `[^,.?!]` — the name capture class of `processWithRegex`. -/
def notNameStop (c : Char) : Bool := !(c = ',' || c = '.' || c = '?' || c = '!')

/-- `[^.?!]` — the address capture class of `processWithRegex`. -/
def notAddrStop (c : Char) : Bool := !(c = '.' || c = '?' || c = '!')

/-! ## The source word lists and patterns -/

/-- `/\b(submit|send|done)\b/i` of `analyzeVoiceInput` (VoiceInput.tsx:116). -/
def submitWordsLocal : List (List Char) := ["submit".data, "send".data, "done".data]

/-- `/\b(clear|reset)\b/i` of `analyzeVoiceInput` (VoiceInput.tsx:126). -/
def clearWords : List (List Char) := ["clear".data, "reset".data]

/-- `/\b(submit|send|done|finish|complete)\b/i` of `PATCH` (route.ts:252) and
`processWithRegex` (route.ts:380). -/
def submitWordsServer : List (List Char) :=
  ["submit".data, "send".data, "done".data, "finish".data, "complete".data]

/-- The name alternation of `processWithRegex` (route.ts:389):
`\b(?:my name is|i am|i'm|call me|name is|the name is|name|this is)\s+([^,.?!]+)`,
with the trailing `\s+([^,.?!]+)` distributed over the alternatives. -/
def nameAlts : List (List Atom) :=
  ["my name is".data, "i am".data, "i'm".data, "call me".data, "name is".data,
   "the name is".data, "name".data, "this is".data].map
    (fun s => [Atom.bnd, Atom.lit s, Atom.many1 isWS, Atom.many1 notNameStop])

/-- The address alternation of `processWithRegex` (route.ts:419). -/
def addrAlts : List (List Atom) :=
  ["my address is".data, "address is".data, "the address is".data, "my address".data,
   "address".data, "i live at".data, "i'm at".data, "i am at".data, "location is".data,
   "my location is".data].map
    (fun s => [Atom.bnd, Atom.lit s, Atom.many1 isWS, Atom.many1 notAddrStop])

/-- `\b[a-zA-Z0-9._%+-]+@[a-zA-Z0-9.-]+\.[a-zA-Z]{2,}\b` of `processWithRegex`
(route.ts:399); `{2,}` is one mandatory character plus a greedy `+`. -/
def emailWordAlts : List (List Atom) :=
  [[Atom.bnd, Atom.many1 emailLocalChar, Atom.one (fun c => c = '@'),
    Atom.many1 emailDomChar, Atom.one (fun c => c = '.'),
    Atom.one Char.isAlpha, Atom.many1 Char.isAlpha, Atom.bnd]]

/-- The three phone alternatives shared by `basicTextCleaning` (route.ts:100)
and `processWithRegex` (route.ts:409):
`\d{3}[-.\s]?\d{3}[-.\s]?\d{4}`, `\(\d{3}\)\s*\d{3}[-.\s]?\d{4}`, `\d{10}`. -/
def phoneCore : List (List Atom) :=
  [[Atom.one isDigitC, Atom.one isDigitC, Atom.one isDigitC, Atom.opt isSep,
    Atom.one isDigitC, Atom.one isDigitC, Atom.one isDigitC, Atom.opt isSep,
    Atom.one isDigitC, Atom.one isDigitC, Atom.one isDigitC, Atom.one isDigitC],
   [Atom.one (fun c => c = '('), Atom.one isDigitC, Atom.one isDigitC, Atom.one isDigitC,
    Atom.one (fun c => c = ')'), Atom.many0 isWS,
    Atom.one isDigitC, Atom.one isDigitC, Atom.one isDigitC, Atom.opt isSep,
    Atom.one isDigitC, Atom.one isDigitC, Atom.one isDigitC, Atom.one isDigitC],
   List.replicate 10 (Atom.one isDigitC)]

/-- The `processWithRegex` phone pattern, which wraps the alternation in
`\b...\b`. -/
def phoneWordAlts : List (List Atom) :=
  phoneCore.map (fun a => [Atom.bnd] ++ a ++ [Atom.bnd])

/-- The `basicTextCleaning` phone pattern (route.ts:100), with no `\b`. -/
def phoneBareAlts : List (List Atom) := phoneCore

/-- `[\w.-]+@[\w.-]+\.\w+` of `basicTextCleaning` (route.ts:88). -/
def emailBareAlts : List (List Atom) :=
  [[Atom.many1 wdhChar, Atom.one (fun c => c = '@'), Atom.many1 wdhChar,
    Atom.one (fun c => c = '.'), Atom.many1 isWordChar]]

/-! ## `basicTextCleaning` (route.ts:74-124) -/

/-- The four form fields. -/
inductive Field
  | name | email | phone | address
deriving DecidableEq, Repr

/-- `text.replace(/^(?:p1|p2|...)\s*/i, '')`: if some alternative (tried in
order) matches case-insensitively at the start of the text, remove it and
any following whitespace. -/
def stripLead (ps : List (List Char)) (cs : List Char) : List Char :=
  match ps.find? (fun p => litAt p cs) with
  | some p => (cs.drop p.length).dropWhile isWS
  | none => cs

/-- First name-replace alternation (route.ts:82). -/
def nameStrip1 : List (List Char) :=
  ["my name is".data, "i am".data, "i'm".data, "call me".data, "name is".data,
   "my name".data, "i'm called".data]

/-- Second name-replace alternation (route.ts:83). -/
def nameStrip2 : List (List Char) :=
  ["this is".data, "it's".data, "it is".data, "just call me".data]

/-- First email-replace alternation (route.ts:93). -/
def emailStrip1 : List (List Char) :=
  ["my email is".data, "email is".data, "my email".data, "email address is".data,
   "you can reach me at".data, "contact me at".data]

/-- Second email-replace alternation (route.ts:94). -/
def emailStrip2 : List (List Char) :=
  ["send mail to".data, "send it to".data, "it's".data]

/-- First phone-replace alternation (route.ts:106). -/
def phoneStrip1 : List (List Char) :=
  ["my phone is".data, "phone is".data, "my phone number is".data,
   "phone number is".data, "call me at".data, "reach me at".data]

/-- Second phone-replace alternation (route.ts:107). -/
def phoneStrip2 : List (List Char) :=
  ["you can reach me at".data, "contact me on".data, "my number is".data, "number is".data]

/-- First address-replace alternation (route.ts:117). -/
def addrStrip1 : List (List Char) :=
  ["my address is".data, "i live at".data, "address is".data, "location is".data,
   "residence is".data, "my home is".data]

/-- Second address-replace alternation (route.ts:118). -/
def addrStrip2 : List (List Char) :=
  ["i'm at".data, "you can find me at".data, "find me at".data, "i stay at".data,
   "i'm living at".data]

/-- The keep-class of the final phone replace
`phone.replace(/[^\d\s\-+().]/g, '')` (route.ts:111). -/
def phoneKeep (c : Char) : Bool :=
  c.isDigit || isWS c || c = '-' || c = '+' || c = '(' || c = ')' || c = '.'

/-- `basicTextCleaning(text, field)` (route.ts:74-124), for the four valid
fields (the `default` branch is unreachable through the validated `POST`). -/
def basicTextCleaning (text : List Char) (field : Field) : List Char :=
  let t := trimList text
  match field with
  | .name => trimList (stripLead nameStrip2 (stripLead nameStrip1 t))
  | .email =>
      match searchTop emailBareAlts t with
      | some segs => fullMatch segs
      | none => trimList (stripLead emailStrip2 (stripLead emailStrip1 t))
  | .phone =>
      match searchTop phoneBareAlts t with
      | some segs => fullMatch segs
      | none =>
          (trimList (stripLead phoneStrip2 (stripLead phoneStrip1 t))).filter phoneKeep
  | .address => trimList (stripLead addrStrip2 (stripLead addrStrip1 t))

/-! ## `processWithRegex` (route.ts:373-430) -/

/-- One detected field of the analysis response: `{ value, confidence }`.
`confidence` is scaled by 100. -/
structure FieldVal where
  value : List Char
  confidence : ℕ
deriving DecidableEq, Repr

/-- The JSON object produced by `PATCH` / `processWithRegex`: optional
`submit` flag (its boolean `value` plus confidence) and the four optional
field entries. -/
structure AnalysisPayload where
  submit : Option (Bool × ℕ)
  name : Option FieldVal
  email : Option FieldVal
  phone : Option FieldVal
  address : Option FieldVal
deriving DecidableEq, Repr

/-- `processWithRegex(text)` (route.ts:373-430). -/
def processWithRegex (text : List Char) : AnalysisPayload :=
  { submit :=
      if hasAnyWord submitWordsServer (lower text) then some (true, 90) else none
    name :=
      match searchTop nameAlts text with
      | some segs =>
          if lastSeg segs ≠ [] then some ⟨trimList (lastSeg segs), 80⟩ else none
      | none => none
    email :=
      match searchTop emailWordAlts text with
      | some segs => some ⟨fullMatch segs, 90⟩
      | none => none
    phone :=
      match searchTop phoneWordAlts text with
      | some segs => some ⟨fullMatch segs, 90⟩
      | none => none
    address :=
      match searchTop addrAlts text with
      | some segs =>
          if lastSeg segs ≠ [] then some ⟨trimList (lastSeg segs), 70⟩ else none
      | none => none }

/-! ## The `PATCH` handler (route.ts:237-370) -/

/-- Outcome of the remote Google AI call as observed by the handler. -/
inductive AiOutcome
  | http (status : ℕ)
  | transport
  | success (body : Option AnalysisPayload)
deriving DecidableEq, Repr

/-- Response of the `PATCH` handler: an analysis payload with its `fromAI`
flag, or a 400 for invalid input. -/
inductive PatchResponse
  | ok (payload : AnalysisPayload) (fromAI : Bool)
  | badRequest
deriving DecidableEq, Repr

/-- The payload of the local submit short-circuit (route.ts:255-261). -/
def submitShortCircuit : AnalysisPayload :=
  { submit := some (true, 95), name := none, email := none, phone := none, address := none }

/-- `PATCH(request)` (route.ts:237-370).  `apiKey` is whether
`GOOGLE_AI_API_KEY` is configured, `now`/`jitter` feed the rate-limit
controller, and `ai` is the observed outcome of the remote call (unused when
no call is made).  `AiOutcome.success none` covers both an empty AI answer
and an unparseable JSON body — in both the code has already recorded the
success before falling back to the regex path. -/
def PATCH (text : List Char) (apiKey : Bool) (now jitter : ℚ) (ai : AiOutcome)
    (s : RateLimitState) : PatchResponse × RateLimitState :=
  if text.isEmpty then (.badRequest, s)
  else if hasAnyWord submitWordsServer (lower text) then (.ok submitShortCircuit false, s)
  else if apiKey then
    let r := isRateLimited now s
    if r.1 then (.ok (processWithRegex text) false, r.2)
    else
      match ai with
      | .http status =>
          if status = 429 then
            (.ok (processWithRegex text) false, handleRateLimit now jitter r.2)
          else (.ok (processWithRegex text) false, r.2)
      | .transport => (.ok (processWithRegex text) false, r.2)
      | .success none => (.ok (processWithRegex text) false, handleSuccessfulRequest now r.2)
      | .success (some payload) => (.ok payload true, handleSuccessfulRequest now r.2)
  else (.ok (processWithRegex text) false, s)

/-! ## The `POST` handler (route.ts:126-234) -/

/-- Outcome of the remote sanitize call: the `success` payload is the raw AI
answer text (trimmed by the handler; an empty or missing answer falls back). -/
inductive PostAiOutcome
  | http (status : ℕ)
  | transport
  | success (raw : List Char)
deriving DecidableEq, Repr

/-- Response of the `POST` handler. -/
inductive PostResponse
  | ok (sanitizedText : List Char) (fromAI : Bool)
  | badRequest
deriving DecidableEq, Repr

/-- `POST(request)` (route.ts:126-234). `field` is `none` when the request
carries no valid field name (route.ts:137). -/
def POST (text : List Char) (field : Option Field) (apiKey : Bool) (now jitter : ℚ)
    (ai : PostAiOutcome) (s : RateLimitState) : PostResponse × RateLimitState :=
  if text.isEmpty then (.badRequest, s)
  else
    match field with
    | none => (.badRequest, s)
    | some f =>
        if apiKey then
          let r := isRateLimited now s
          if r.1 then (.ok (basicTextCleaning text f) false, r.2)
          else
            match ai with
            | .http status =>
                if status = 429 then
                  (.ok (basicTextCleaning text f) false, handleRateLimit now jitter r.2)
                else (.ok (basicTextCleaning text f) false, r.2)
            | .transport => (.ok (basicTextCleaning text f) false, r.2)
            | .success raw =>
                let st := trimList raw
                if st.isEmpty then
                  (.ok (basicTextCleaning text f) false, handleSuccessfulRequest now r.2)
                else (.ok st true, handleSuccessfulRequest now r.2)
        else (.ok (basicTextCleaning text f) false, s)

/-! ## The client (`src/app/components/VoiceInput.tsx`) -/

/-- The possible intents (VoiceInput.tsx:67). -/
inductive IntentType
  | provide_info | submit | clear | unknown
deriving DecidableEq, Repr

/-- A detected field (VoiceInput.tsx:60-64); confidence is scaled by 100. -/
structure DetectedField where
  field : Field
  value : List Char
  confidence : ℕ
deriving DecidableEq, Repr

/-- The sole output of the pipeline (VoiceInput.tsx:70-74). -/
structure VoiceUnderstanding where
  intent : IntentType
  detectedFields : List DetectedField
  originalText : List Char
deriving DecidableEq, Repr

/-- `analyzeVoiceInput(text)` (VoiceInput.tsx:108-141): local submit / clear
detection only. -/
def analyzeVoiceInput (text : List Char) : VoiceUnderstanding :=
  let normalizedText := trimList (lower text)
  if hasAnyWord submitWordsLocal normalizedText then
    { intent := .submit, detectedFields := [], originalText := text }
  else if hasAnyWord clearWords normalizedText then
    { intent := .clear, detectedFields := [], originalText := text }
  else
    { intent := .unknown, detectedFields := [], originalText := text }

/-- What the client sees of the `PATCH` fetch: a parsed body, or any
failure (network error, timeout, non-ok status). -/
inductive FetchResult
  | failed
  | ok (data : AnalysisPayload) (fromAI : Bool)
deriving DecidableEq, Repr

/-- `data.submit && data.submit.value === true` (VoiceInput.tsx:192). -/
def submitFlag (d : AnalysisPayload) : Bool :=
  match d.submit with
  | some (true, _) => true
  | _ => false

/-- `data[fieldName].confidence || 0.8` (VoiceInput.tsx:218): a zero (falsy)
confidence is replaced by 0.8 (scaled: 80). -/
def fixConf (c : ℕ) : ℕ := if c = 0 then 80 else c

/-- The detected-field list built from the AI response in the order
name, email, phone, address (VoiceInput.tsx:213-221). -/
def collectFields (d : AnalysisPayload) : List DetectedField :=
  (match d.name with
    | some fv => [⟨Field.name, fv.value, fixConf fv.confidence⟩] | none => []) ++
  (match d.email with
    | some fv => [⟨Field.email, fv.value, fixConf fv.confidence⟩] | none => []) ++
  (match d.phone with
    | some fv => [⟨Field.phone, fv.value, fixConf fv.confidence⟩] | none => []) ++
  (match d.address with
    | some fv => [⟨Field.address, fv.value, fixConf fv.confidence⟩] | none => [])

/-- `processVoiceInput(text)` (VoiceInput.tsx:144-271), as a function of the
fetch outcome.  Returns `none` when no understanding is delivered (empty
input).  When `useAI` is false or the fetch fails, only the basic intent is
used. -/
def processVoiceInput (text : List Char) (useAI : Bool) (server : FetchResult) :
    Option VoiceUnderstanding :=
  if trimList text = [] then none
  else
    let basicIntent := analyzeVoiceInput text
    if useAI then
      match server with
      | .ok data _ =>
          if submitFlag data then
            some { intent := .submit, detectedFields := [], originalText := text }
          else
            let fields := collectFields data
            if fields.isEmpty then
              if basicIntent.intent ≠ .unknown then some basicIntent
              else some { intent := .unknown, detectedFields := [], originalText := text }
            else some { intent := .provide_info, detectedFields := fields, originalText := text }
      | .failed => some basicIntent
    else some basicIntent

/-- Convert the `PATCH` response to what the client's fetch observes. -/
def toFetchResult : PatchResponse → FetchResult
  | .ok p b => .ok p b
  | .badRequest => .failed

/-- The end-to-end pipeline for one utterance: the client guard, the `PATCH`
round-trip when AI is enabled and the server reachable, and the client
interpretation of the result.  Returns the delivered understanding (if any)
and the server's rate-limit state afterwards. -/
def pipeline (text : List Char) (useAI apiKey : Bool) (now jitter : ℚ) (ai : AiOutcome)
    (reachable : Bool) (s : RateLimitState) :
    Option VoiceUnderstanding × RateLimitState :=
  if trimList text = [] then (none, s)
  else if useAI && reachable then
    let pr := PATCH text apiKey now jitter ai s
    (processVoiceInput text useAI (toFetchResult pr.1), pr.2)
  else (processVoiceInput text useAI .failed, s)

/-! ## The speech-recognition error handler (VoiceInput.tsx:342-362) -/

/-- The `onerror` handler: returns the error message shown to the user (if
any) and the new value of the `listening` flag. -/
def onerror (err : List Char) (listening : Bool) : Option (List Char) × Bool :=
  let msg : Option (List Char) :=
    if err = "not-allowed".data then
      some "Microphone access denied. Please allow microphone access and try again.".data
    else if err = "no-speech".data then
      some "No speech detected. Please try speaking again.".data
    else if err = "network".data then
      some "Network error. Check your internet connection and try again.".data
    else if err = "aborted".data then none
    else some ("Error: ".data ++ err ++ ". Please try again.".data)
  (msg, if err ≠ "aborted".data then false else listening)

/-! ## The submit branch of `handleVoiceInput` (page component, lines 139-187) -/

/-- The four text inputs of the form (as read from the DOM) or the tracked
form state. -/
structure FormSnapshot where
  name : List Char
  email : List Char
  phone : List Char
  address : List Char
deriving DecidableEq, Repr

/-- The observable effect of the submit branch. -/
structure SubmitEffect where
  stored : Option FormSnapshot
  navigated : Bool
  errorMsg : Option (List Char)
  formAfter : FormSnapshot
deriving DecidableEq, Repr

/-- The error shown when submitting an empty form. -/
def noDataError : List Char := "Please provide some information before submitting.".data

/-- The `case 'submit'` branch of `handleVoiceInput` (lines 139-187): trim
the four DOM input values; if all are empty, set an error and return without
persisting or navigating; otherwise persist the trimmed record and navigate.
The tracked form state is never modified by this branch. -/
def handleVoiceSubmit (form dom : FormSnapshot) : SubmitEffect :=
  let submissionData : FormSnapshot :=
    ⟨trimList dom.name, trimList dom.email, trimList dom.phone, trimList dom.address⟩
  let hasAnyData :=
    !submissionData.name.isEmpty || !submissionData.email.isEmpty ||
      !submissionData.phone.isEmpty || !submissionData.address.isEmpty
  if hasAnyData then
    { stored := some submissionData, navigated := true, errorMsg := none, formAfter := form }
  else
    { stored := none, navigated := false, errorMsg := some noDataError, formAfter := form }

/-! # Theorems -/

lemma backoff_inv_applyOp (s : RateLimitState) (op : RLOp)
    (hop : opJitterOK op = true)
    (h1 : 1000 ≤ s.backoffMs) (h2 : s.backoffMs ≤ 30000) :
    1000 ≤ (applyOp s op).backoffMs ∧ (applyOp s op).backoffMs ≤ 30000 := by
  cases op with
  | check now =>
      simp only [applyOp, isRateLimited]
      split
      · split <;> exact ⟨h1, h2⟩
      · exact ⟨h1, h2⟩
  | failure now j =>
      simp only [opJitterOK, Bool.and_eq_true, decide_eq_true_eq] at hop
      obtain ⟨hj1, _⟩ := hop
      constructor
      · refine le_min (by norm_num) ?_
        nlinarith
      · exact min_le_left _ _
  | success now =>
      simp only [applyOp, handleSuccessfulRequest]
      split
      · exact ⟨by norm_num, by norm_num⟩
      · exact ⟨h1, h2⟩

lemma backoff_inv_runOps (ops : List RLOp) (hops : ops.all opJitterOK = true) :
    ∀ s : RateLimitState, 1000 ≤ s.backoffMs → s.backoffMs ≤ 30000 →
      1000 ≤ (runOps s ops).backoffMs ∧ (runOps s ops).backoffMs ≤ 30000 := by
  induction ops with
  | nil => intro s h1 h2; exact ⟨h1, h2⟩
  | cons op ops ih =>
      intro s h1 h2
      simp only [List.all_cons, Bool.and_eq_true] at hops
      obtain ⟨hop, hops'⟩ := hops
      obtain ⟨g1, g2⟩ := backoff_inv_applyOp s op hop h1 h2
      exact ih hops' _ g1 g2

/-- C3: starting from the initial rate-limit state, `backoffMs` stays in
`[1000, 30000]` after every sequence of `isRateLimited` / `recordFailure` /
`recordSuccess` calls, for every jitter value in `[1/2, 3/2)`. -/
theorem C3_backoff_invariant (ops : List RLOp) (hops : ops.all opJitterOK = true) :
    1000 ≤ (runOps initialRateLimitState ops).backoffMs ∧
      (runOps initialRateLimitState ops).backoffMs ≤ 30000 :=
  backoff_inv_runOps ops hops initialRateLimitState (by norm_num [initialRateLimitState])
    (by norm_num [initialRateLimitState])

/-- Witness for C3 on a concrete operation sequence (three repeated failures
with near-maximal jitter, then a check and a success). -/
theorem C3_backoff_invariant_witness :
    ([RLOp.failure 5 (7/5), RLOp.failure 6 (7/5), RLOp.failure 7 (7/5),
      RLOp.check 8, RLOp.success 9].all opJitterOK = true) ∧
    (1000 ≤ (runOps initialRateLimitState
        [RLOp.failure 5 (7/5), RLOp.failure 6 (7/5), RLOp.failure 7 (7/5),
         RLOp.check 8, RLOp.success 9]).backoffMs ∧
      (runOps initialRateLimitState
        [RLOp.failure 5 (7/5), RLOp.failure 6 (7/5), RLOp.failure 7 (7/5),
         RLOp.check 8, RLOp.success 9]).backoffMs ≤ 30000) :=
  ⟨by norm_num [opJitterOK], C3_backoff_invariant _ (by norm_num [opJitterOK])⟩

/-- C4: `isRateLimited` returns true immediately after `recordFailure` (no
time elapsed), and once `now - lastRequestTime > backoffMs` it returns false
and clears the `inCooldown` flag. -/
theorem C4_isRateLimited_behavior :
    (∀ (s : RateLimitState) (now j : ℚ), 0 ≤ s.backoffMs → 0 ≤ j →
      (isRateLimited now (handleRateLimit now j s)).1 = true) ∧
    (∀ (s : RateLimitState) (now : ℚ), s.backoffMs < now - s.lastRequestTime →
      (isRateLimited now s).1 = false ∧ ((isRateLimited now s).2).inCooldown = false) := by
  constructor
  · intro s now j hb hj
    have h30 : ¬ ((30000 : ℚ) < 0) := by norm_num
    have hbj : ¬ (s.backoffMs * 2 * j < 0) := not_lt.mpr (by positivity)
    simp [isRateLimited, handleRateLimit, h30, hbj]
  · intro s now h
    unfold isRateLimited
    cases hc : s.inCooldown with
    | false => simp [hc]
    | true => simp [hc, h]

/-- Witness for C4 at concrete states and times. -/
theorem C4_isRateLimited_behavior_witness :
    ((isRateLimited 5 (handleRateLimit 5 1 initialRateLimitState)).1 = true) ∧
    ((isRateLimited 2001 ⟨0, 1, 1000, true⟩).1 = false ∧
      ((isRateLimited 2001 ⟨0, 1, 1000, true⟩).2).inCooldown = false) :=
  ⟨C4_isRateLimited_behavior.1 initialRateLimitState 5 1 (by norm_num [initialRateLimitState])
      (by norm_num),
   C4_isRateLimited_behavior.2 ⟨0, 1, 1000, true⟩ 2001 (by norm_num)⟩

/-- C5: after any `recordFailure` followed by `recordSuccess`, the state has
`consecutiveErrors = 0`, `backoffMs = 1000`, and `lastRequestTime` equal to
the time of the `recordSuccess` call. -/
theorem C5_failure_then_success (s : RateLimitState) (now1 j now2 : ℚ) :
    (handleSuccessfulRequest now2 (handleRateLimit now1 j s)).consecutiveErrors = 0 ∧
    (handleSuccessfulRequest now2 (handleRateLimit now1 j s)).backoffMs = 1000 ∧
    (handleSuccessfulRequest now2 (handleRateLimit now1 j s)).lastRequestTime = now2 := by
  simp [handleSuccessfulRequest, handleRateLimit]

/-- The utterance of claim C1. -/
def c1Text : List Char := "my name is Bob and my email is bob@x.com".data

/-- C1, counterexample: with AI disabled the pipeline classifies the C1
utterance as `unknown` with no detected fields — not as `provide_info` with
fields name = "Bob" (0.8) and email = "bob@x.com" (0.9) as claimed; and even
on the server regex-fallback path (AI toggle on, no API key) the detected
name value is "Bob and my email is bob@x", not "Bob".  Confidences are
scaled by 100. -/
theorem C1_counterexample :
    (pipeline c1Text false false 0 1 AiOutcome.transport false initialRateLimitState).1
      = some ⟨IntentType.unknown, [], c1Text⟩
    ∧ (pipeline c1Text false false 0 1 AiOutcome.transport false initialRateLimitState).1
      ≠ some ⟨IntentType.provide_info,
          [⟨Field.name, "Bob".data, 80⟩, ⟨Field.email, "bob@x.com".data, 90⟩], c1Text⟩
    ∧ (pipeline c1Text true false 0 1 AiOutcome.transport true initialRateLimitState).1
      ≠ some ⟨IntentType.provide_info,
          [⟨Field.name, "Bob".data, 80⟩, ⟨Field.email, "bob@x.com".data, 90⟩], c1Text⟩ := by
  decide

/-- C1, amended: for the C1 utterance, with AI processing disabled the
pipeline produces `Understanding{intent: unknown, detectedFields: []}` in
every configuration (local processing detects only submit/clear); the
claimed field extraction happens only on the server path — with the AI
toggle on but no API key configured, the regex fallback yields
`provide_info` with name "Bob and my email is bob@x" (confidence 0.8) and
email "bob@x.com" (confidence 0.9).  Confidences are scaled by 100. -/
theorem C1_amended :
    (∀ (apiKey : Bool) (now jitter : ℚ) (ai : AiOutcome) (reachable : Bool)
        (s : RateLimitState),
      (pipeline c1Text false apiKey now jitter ai reachable s).1
        = some ⟨IntentType.unknown, [], c1Text⟩)
    ∧ (∀ (now jitter : ℚ) (ai : AiOutcome) (s : RateLimitState),
      (pipeline c1Text true false now jitter ai true s).1
        = some ⟨IntentType.provide_info,
            [⟨Field.name, "Bob and my email is bob@x".data, 80⟩,
             ⟨Field.email, "bob@x.com".data, 90⟩], c1Text⟩) :=
  ⟨fun apiKey now jitter ai reachable s => rfl, fun now jitter ai s => rfl⟩

/-- C6, counterexample: the name extractor applied to
"hi, i'm called Jane Doe" returns the input unchanged, not "Jane Doe":
the conversational-prefix replaces are anchored at the start of the text and
"hi, " prevents every alternative from matching. -/
theorem C6_counterexample :
    basicTextCleaning "hi, i'm called Jane Doe".data Field.name
      = "hi, i'm called Jane Doe".data
    ∧ basicTextCleaning "hi, i'm called Jane Doe".data Field.name ≠ "Jane Doe".data := by
  decide

/-- C6, amended: the name extractor returns "hi, i'm called Jane Doe"
unchanged (prefixes strip only at the start of the text); even without the
leading "hi, " the result is "called Jane Doe", because the alternative
"i'm" is tried before "i'm called"; "call me Jane Doe" does yield
"Jane Doe". -/
theorem C6_amended :
    basicTextCleaning "hi, i'm called Jane Doe".data Field.name
      = "hi, i'm called Jane Doe".data
    ∧ basicTextCleaning "i'm called Jane Doe".data Field.name = "called Jane Doe".data
    ∧ basicTextCleaning "call me Jane Doe".data Field.name = "Jane Doe".data := by
  decide

lemma dropWhile_head?_false (p : Char → Bool) (l : List Char) (c : Char)
    (h : (l.dropWhile p).head? = some c) : p c = false := by
  induction l with
  | nil => simp at h
  | cons a t ih =>
      rw [List.dropWhile_cons] at h
      split at h
      · exact ih h
      · next hpa =>
          simp only [List.head?_cons, Option.some.injEq] at h
          subst h
          simpa using hpa

lemma dropWhile_self_of_head (p : Char → Bool) (l : List Char)
    (h : ∀ c, l.head? = some c → p c = false) : l.dropWhile p = l := by
  cases l with
  | nil => rfl
  | cons a t =>
      have ha := h a rfl
      rw [List.dropWhile_cons]
      simp [ha]

lemma dropWhile_idem (p : Char → Bool) (l : List Char) :
    (l.dropWhile p).dropWhile p = l.dropWhile p :=
  dropWhile_self_of_head p _ (fun c hc => dropWhile_head?_false p l c hc)

lemma getLast?_dropWhile (p : Char → Bool) (l : List Char) :
    l.dropWhile p = [] ∨ (l.dropWhile p).getLast? = l.getLast? := by
  induction l with
  | nil => exact Or.inl rfl
  | cons a t ih =>
      rw [List.dropWhile_cons]
      split
      · by_cases hdt : t.dropWhile p = []
        · exact Or.inl hdt
        · right
          rcases ih with h | h
          · exact absurd h hdt
          · rw [h]
            cases t with
            | nil => exact absurd rfl hdt
            | cons b t' => rw [List.getLast?_cons_cons]
      · exact Or.inr rfl

lemma trimList_idem (cs : List Char) : trimList (trimList cs) = trimList cs := by
  have h1 : (trimList cs).dropWhile isWS = trimList cs := by
    apply dropWhile_self_of_head
    intro c hc
    unfold trimList at hc
    rw [List.head?_reverse] at hc
    rcases getLast?_dropWhile isWS (cs.dropWhile isWS).reverse with h | h
    · rw [h] at hc; simp at hc
    · rw [h, List.getLast?_reverse] at hc
      exact dropWhile_head?_false isWS cs c hc
  show ((trimList cs |>.dropWhile isWS).reverse.dropWhile isWS).reverse = trimList cs
  rw [h1]
  unfold trimList
  rw [List.reverse_reverse, dropWhile_idem]

/-- The condition under which a `replace(/^(?:p1|...)\s*/i, '')` is a no-op:
no alternative matches at the start of the text. -/
def noLead (ps : List (List Char)) (cs : List Char) : Bool :=
  ps.all (fun p => !litAt p cs)

lemma stripLead_eq_self (ps : List (List Char)) (cs : List Char)
    (h : noLead ps cs = true) : stripLead ps cs = cs := by
  unfold stripLead
  have hf : ps.find? (fun p => litAt p cs) = none := by
    rw [List.find?_eq_none]
    intro p hp
    have hall := (List.all_eq_true.mp h) p hp
    simpa using hall
  rw [hf]

/-- C7, counterexample: the claim fails for the phone extractor.  On the
input "hello" no phone pattern matches and no conversational prefix applies,
yet the extractor returns "" rather than the trimmed input, because the code
unconditionally deletes every character outside `[\d\s\-+().]`. -/
theorem C7_counterexample :
    searchTop phoneBareAlts (trimList "hello".data) = none
    ∧ noLead phoneStrip1 (trimList "hello".data) = true
    ∧ noLead phoneStrip2 (trimList "hello".data) = true
    ∧ basicTextCleaning "hello".data Field.phone = []
    ∧ basicTextCleaning "hello".data Field.phone ≠ trimList "hello".data := by
  decide

/-- C7, amended: all four extractors are total, and when no field pattern
matches and no conversational prefix applies, the name, email and address
extractors return the trimmed input unmodified; the phone extractor instead
returns the trimmed input with every character outside digits, whitespace
and `-+().` removed. -/
theorem C7_amended (text : List Char) :
    (noLead nameStrip1 (trimList text) = true → noLead nameStrip2 (trimList text) = true →
      basicTextCleaning text Field.name = trimList text)
    ∧ (searchTop emailBareAlts (trimList text) = none →
        noLead emailStrip1 (trimList text) = true →
        noLead emailStrip2 (trimList text) = true →
        basicTextCleaning text Field.email = trimList text)
    ∧ (noLead addrStrip1 (trimList text) = true → noLead addrStrip2 (trimList text) = true →
        basicTextCleaning text Field.address = trimList text)
    ∧ (searchTop phoneBareAlts (trimList text) = none →
        noLead phoneStrip1 (trimList text) = true →
        noLead phoneStrip2 (trimList text) = true →
        basicTextCleaning text Field.phone = (trimList text).filter phoneKeep) := by
  refine ⟨fun h1 h2 => ?_, fun hs h1 h2 => ?_, fun h1 h2 => ?_, fun hs h1 h2 => ?_⟩
  · show trimList (stripLead nameStrip2 (stripLead nameStrip1 (trimList text))) = _
    rw [stripLead_eq_self _ _ h1, stripLead_eq_self _ _ h2, trimList_idem]
  · show (match searchTop emailBareAlts (trimList text) with
      | some segs => fullMatch segs
      | none => trimList (stripLead emailStrip2 (stripLead emailStrip1 (trimList text)))) = _
    rw [hs]
    show trimList (stripLead emailStrip2 (stripLead emailStrip1 (trimList text))) = _
    rw [stripLead_eq_self _ _ h1, stripLead_eq_self _ _ h2, trimList_idem]
  · show trimList (stripLead addrStrip2 (stripLead addrStrip1 (trimList text))) = _
    rw [stripLead_eq_self _ _ h1, stripLead_eq_self _ _ h2, trimList_idem]
  · show (match searchTop phoneBareAlts (trimList text) with
      | some segs => fullMatch segs
      | none =>
          (trimList (stripLead phoneStrip2 (stripLead phoneStrip1 (trimList text)))).filter
            phoneKeep) = _
    rw [hs]
    show (trimList (stripLead phoneStrip2 (stripLead phoneStrip1 (trimList text)))).filter
        phoneKeep = _
    rw [stripLead_eq_self _ _ h1, stripLead_eq_self _ _ h2, trimList_idem]

/-- Witness for C7 on the input "zzz", which matches no pattern and no
prefix in any of the four extractors. -/
theorem C7_amended_witness :
    (noLead nameStrip1 (trimList "zzz".data) = true ∧
      noLead nameStrip2 (trimList "zzz".data) = true ∧
      searchTop emailBareAlts (trimList "zzz".data) = none ∧
      noLead emailStrip1 (trimList "zzz".data) = true ∧
      noLead emailStrip2 (trimList "zzz".data) = true ∧
      noLead addrStrip1 (trimList "zzz".data) = true ∧
      noLead addrStrip2 (trimList "zzz".data) = true ∧
      searchTop phoneBareAlts (trimList "zzz".data) = none ∧
      noLead phoneStrip1 (trimList "zzz".data) = true ∧
      noLead phoneStrip2 (trimList "zzz".data) = true) ∧
    basicTextCleaning "zzz".data Field.name = trimList "zzz".data ∧
    basicTextCleaning "zzz".data Field.email = trimList "zzz".data ∧
    basicTextCleaning "zzz".data Field.address = trimList "zzz".data ∧
    basicTextCleaning "zzz".data Field.phone = (trimList "zzz".data).filter phoneKeep :=
  ⟨by decide,
   (C7_amended "zzz".data).1 (by decide) (by decide),
   (C7_amended "zzz".data).2.1 (by decide) (by decide) (by decide),
   (C7_amended "zzz".data).2.2.1 (by decide) (by decide),
   (C7_amended "zzz".data).2.2.2 (by decide) (by decide) (by decide)⟩

lemma ws_char_cases {c : Char} (h : isWS c = true) :
    c = ' ' ∨ c = '\t' ∨ c = '\r' ∨ c = '\n' := by
  have h2 : ((c = ' ' ∨ c = '\t') ∨ c = '\r') ∨ c = '\n' := by
    simpa [isWS, Char.isWhitespace] using h
  tauto

lemma isWS_not_word {c : Char} (h : isWS c = true) : isWordChar c = false := by
  rcases ws_char_cases h with rfl | rfl | rfl | rfl <;> decide

lemma isWS_toLower_self {c : Char} (h : isWS c = true) : Char.toLower c = c := by
  rcases ws_char_cases h with rfl | rfl | rfl | rfl <;> decide

lemma hasWordAux_congr_prev (ws : List (List Char)) (cs : List Char) {p q : Option Char}
    (h : wordOpt p = wordOpt q) : hasWordAux ws p cs = hasWordAux ws q cs := by
  cases cs with
  | nil => rfl
  | cons c t => simp [hasWordAux, h]

lemma boundedWordAt_append (w' t w : List Char) (hw : ∀ c ∈ w, isWS c = true)
    (h : boundedWordAt w' t = true) : boundedWordAt w' (t ++ w) = true := by
  unfold boundedWordAt at h ⊢
  rw [Bool.and_eq_true] at h ⊢
  obtain ⟨h1, h2⟩ := h
  have hpre : w' <+: t := List.isPrefixOf_iff_prefix.mp h1
  have hlen : w'.length ≤ t.length := hpre.length_le
  constructor
  · exact List.isPrefixOf_iff_prefix.mpr (hpre.trans (List.prefix_append t w))
  · rw [List.drop_append_of_le_length hlen]
    cases hd : t.drop w'.length with
    | nil =>
        cases w with
        | nil => rw [hd] at h2; simpa using h2
        | cons d w2 =>
            have hnw := isWS_not_word (hw d (by simp))
            simp [wordOpt, hnw]
    | cons d t2 =>
        rw [hd] at h2
        simpa using h2

lemma hasWordAux_append_ws (ws : List (List Char)) (v w : List Char) (p : Option Char)
    (hw : ∀ c ∈ w, isWS c = true) (h : hasWordAux ws p v = true) :
    hasWordAux ws p (v ++ w) = true := by
  induction v generalizing p with
  | nil => simp [hasWordAux] at h
  | cons c t ih =>
      rw [List.cons_append]
      simp only [hasWordAux, Bool.or_eq_true, Bool.and_eq_true, List.any_eq_true] at h ⊢
      rcases h with ⟨hb, wx, hwx, hbw⟩ | h
      · exact Or.inl ⟨hb, wx, hwx, boundedWordAt_append wx (c :: t) w hw hbw⟩
      · exact Or.inr (ih _ h)

lemma hasWordAux_ws_prepend (ws : List (List Char)) (u v : List Char)
    (hu : ∀ c ∈ u, isWS c = true) (h : hasWordAux ws none v = true) :
    hasWordAux ws none (u ++ v) = true := by
  induction u with
  | nil => simpa using h
  | cons c t ih =>
      rw [List.cons_append]
      simp only [hasWordAux, Bool.or_eq_true]
      right
      have hnw : wordOpt (some c) = wordOpt none := by
        simp [wordOpt, isWS_not_word (hu c (by simp))]
      rw [hasWordAux_congr_prev ws (t ++ v) hnw]
      exact ih (fun d hd => hu d (by simp [hd]))

lemma trimList_decomp (cs : List Char) :
    ∃ u v, cs = u ++ trimList cs ++ v ∧ (∀ c ∈ u, isWS c = true) ∧
      (∀ c ∈ v, isWS c = true) := by
  refine ⟨cs.takeWhile isWS, ((cs.dropWhile isWS).reverse.takeWhile isWS).reverse,
    ?_, ?_, ?_⟩
  · conv_lhs => rw [← List.takeWhile_append_dropWhile (p := isWS) (l := cs)]
    rw [List.append_assoc]
    congr 1
    conv_lhs => rw [← List.reverse_reverse (cs.dropWhile isWS),
      ← List.takeWhile_append_dropWhile (p := isWS) (l := (cs.dropWhile isWS).reverse)]
    rw [List.reverse_append]
    rfl
  · intro c hc; exact List.mem_takeWhile_imp hc
  · intro c hc
    rw [List.mem_reverse] at hc
    exact List.mem_takeWhile_imp hc

lemma hasAnyWord_of_trim (ws : List (List Char)) (cs : List Char)
    (h : hasAnyWord ws (trimList cs) = true) : hasAnyWord ws cs = true := by
  obtain ⟨u, v, hdec, hu, hv⟩ := trimList_decomp cs
  unfold hasAnyWord at h ⊢
  rw [hdec]
  have h1 : hasWordAux ws none (trimList cs ++ v) = true :=
    hasWordAux_append_ws ws (trimList cs) v none hv h
  have h2 := hasWordAux_ws_prepend ws u (trimList cs ++ v) hu h1
  simpa [List.append_assoc] using h2

lemma hasWordAux_mono (ws ws' : List (List Char)) (hsub : ∀ w ∈ ws, w ∈ ws')
    (p : Option Char) (cs : List Char) (h : hasWordAux ws p cs = true) :
    hasWordAux ws' p cs = true := by
  induction cs generalizing p with
  | nil => simp [hasWordAux] at h
  | cons c t ih =>
      simp only [hasWordAux, Bool.or_eq_true, Bool.and_eq_true, List.any_eq_true] at h ⊢
      rcases h with ⟨hb, w, hw, hbw⟩ | h
      · exact Or.inl ⟨hb, w, hsub w hw, hbw⟩
      · exact Or.inr (ih _ h)

/-- Every word of the submit / clear lists starts with a word character. -/
def headWordOK : List Char → Bool
  | [] => false
  | c :: _ => isWordChar c

lemma hasWordAux_exists_word_char (ws : List (List Char)) (hws : ws.all headWordOK = true)
    (p : Option Char) (cs : List Char) (h : hasWordAux ws p cs = true) :
    ∃ c ∈ cs, isWordChar c = true := by
  induction cs generalizing p with
  | nil => simp [hasWordAux] at h
  | cons c t ih =>
      simp only [hasWordAux, Bool.or_eq_true, Bool.and_eq_true, List.any_eq_true] at h
      rcases h with ⟨hb, w, hw, hbw⟩ | h
      · have hok := (List.all_eq_true.mp hws) w hw
        cases w with
        | nil => simp [headWordOK] at hok
        | cons a w2 =>
            unfold boundedWordAt at hbw
            rw [Bool.and_eq_true] at hbw
            obtain ⟨r, hr⟩ := List.isPrefixOf_iff_prefix.mp hbw.1
            have hac : a = c := by
              have := congrArg List.head? hr
              simpa using this
            subst hac
            exact ⟨a, by simp, by simpa [headWordOK] using hok⟩
      · obtain ⟨d, hd, hwd⟩ := ih _ h
        exact ⟨d, by simp [hd], hwd⟩

lemma allWS_of_trim_nil {cs : List Char} (h : trimList cs = []) :
    ∀ c ∈ cs, isWS c = true := by
  intro c hc
  unfold trimList at h
  rw [List.reverse_eq_nil_iff, List.dropWhile_eq_nil_iff] at h
  have hdrop : ∀ x ∈ cs.dropWhile isWS, isWS x = true := by
    intro x hx
    exact h x (by simpa [List.mem_reverse] using hx)
  have hcs := List.takeWhile_append_dropWhile (p := isWS) (l := cs)
  rw [← hcs] at hc
  rcases List.mem_append.mp hc with hc1 | hc2
  · exact List.mem_takeWhile_imp hc1
  · exact hdrop c hc2

lemma trim_ne_nil_of_word (ws : List (List Char)) (hws : ws.all headWordOK = true)
    (text : List Char) (h : hasAnyWord ws (lower text) = true) :
    ¬ trimList text = [] := by
  intro htrim
  obtain ⟨c, hc, hcw⟩ := hasWordAux_exists_word_char ws hws none (lower text) h
  obtain ⟨c', hc', heq⟩ := List.mem_map.mp hc
  have hwsc : isWS c' = true := allWS_of_trim_nil htrim c' hc'
  have hlc : Char.toLower c' = c' := isWS_toLower_self hwsc
  rw [← heq, hlc, isWS_not_word hwsc] at hcw
  exact Bool.false_ne_true hcw

/-- C2, counterexample: "finish" contains one of the five submit words as a
whole word, yet with AI disabled the pipeline classifies it as `unknown`,
not `submit` — the local fallback only recognises submit/send/done. -/
theorem C2_counterexample :
    hasAnyWord submitWordsServer (lower "finish".data) = true
    ∧ (pipeline "finish".data false false 0 1 AiOutcome.transport false
        initialRateLimitState).1
      = some ⟨IntentType.unknown, [], "finish".data⟩
    ∧ (pipeline "finish".data false false 0 1 AiOutcome.transport false
        initialRateLimitState).1
      ≠ some ⟨IntentType.submit, [], "finish".data⟩ := by
  decide

/-- C2, amended: an utterance containing submit, send or done as a whole
word (case-insensitively) produces exactly one
`Understanding{intent: submit, detectedFields: []}` in every combination of
AI enabled/disabled, reachability and rate-limit state; an utterance
containing any of the five words submit, send, done, finish, complete does
so whenever the analysis endpoint is reached (AI enabled and the server
reachable), in every rate-limit state — the endpoint short-circuits before
the rate-limit check.  finish/complete are not recognised by the local
fallback. -/
theorem C2_amended :
    (∀ (text : List Char) (useAI apiKey : Bool) (now jitter : ℚ) (ai : AiOutcome)
        (reachable : Bool) (s : RateLimitState),
      hasAnyWord submitWordsLocal (trimList (lower text)) = true →
      (pipeline text useAI apiKey now jitter ai reachable s).1
        = some ⟨IntentType.submit, [], text⟩)
    ∧ (∀ (text : List Char) (apiKey : Bool) (now jitter : ℚ) (ai : AiOutcome)
        (s : RateLimitState),
      hasAnyWord submitWordsServer (lower text) = true →
      (pipeline text true apiKey now jitter ai true s).1
        = some ⟨IntentType.submit, [], text⟩) := by
  have hlocal_heads : submitWordsLocal.all headWordOK = true := by decide
  have hserver_heads : submitWordsServer.all headWordOK = true := by decide
  have hsub : ∀ w ∈ submitWordsLocal, w ∈ submitWordsServer := by decide
  constructor
  · intro text useAI apiKey now jitter ai reachable s h
    have hlow : hasAnyWord submitWordsLocal (lower text) = true :=
      hasAnyWord_of_trim _ _ h
    have hserver : hasAnyWord submitWordsServer (lower text) = true :=
      hasWordAux_mono _ _ hsub none _ hlow
    have htr : ¬ trimList text = [] := trim_ne_nil_of_word _ hlocal_heads text hlow
    have hemp : text.isEmpty = false := by
      cases text with
      | nil => simp [lower, hasAnyWord, hasWordAux] at hlow
      | cons a t => rfl
    unfold pipeline
    rw [if_neg htr]
    cases hur : useAI && reachable with
    | false =>
        rw [if_neg (by simp [hur])]
        cases useAI <;> simp [processVoiceInput, htr, analyzeVoiceInput, h]
    | true =>
        have hur' := hur
        rw [Bool.and_eq_true] at hur'
        obtain ⟨hu, hr⟩ := hur'
        subst hu; subst hr
        rw [if_pos (show (true : Bool) = true by rfl)]
        have hPATCH : PATCH text apiKey now jitter ai s
            = (.ok submitShortCircuit false, s) := by
          unfold PATCH
          rw [if_neg (by simp [hemp]), if_pos hserver]
        simp only [hPATCH]
        simp [processVoiceInput, htr, toFetchResult, submitFlag, submitShortCircuit]
  · intro text apiKey now jitter ai s h
    have htr : ¬ trimList text = [] := trim_ne_nil_of_word _ hserver_heads text h
    have hemp : text.isEmpty = false := by
      cases text with
      | nil => simp [lower, hasAnyWord, hasWordAux] at h
      | cons a t => rfl
    unfold pipeline
    rw [if_neg htr, if_pos (show (true && true) = true by rfl)]
    have hPATCH : PATCH text apiKey now jitter ai s
        = (.ok submitShortCircuit false, s) := by
      unfold PATCH
      rw [if_neg (by simp [hemp]), if_pos h]
    simp only [hPATCH]
    simp [processVoiceInput, htr, toFetchResult, submitFlag, submitShortCircuit]

/-- Witness for C2: "please send it" through the AI-disabled pipeline, and
"finish" through the AI-enabled one. -/
theorem C2_amended_witness :
    (hasAnyWord submitWordsLocal (trimList (lower "please send it".data)) = true
      ∧ (pipeline "please send it".data false false 0 1 AiOutcome.transport false
          initialRateLimitState).1
        = some ⟨IntentType.submit, [], "please send it".data⟩)
    ∧ (hasAnyWord submitWordsServer (lower "finish".data) = true
      ∧ (pipeline "finish".data true true 0 1 (AiOutcome.success none) true
          initialRateLimitState).1
        = some ⟨IntentType.submit, [], "finish".data⟩) :=
  ⟨⟨by decide,
    C2_amended.1 "please send it".data false false 0 1 AiOutcome.transport false
      initialRateLimitState (by decide)⟩,
   ⟨by decide,
    C2_amended.2 "finish".data true 0 1 (AiOutcome.success none) initialRateLimitState
      (by decide)⟩⟩

lemma isRateLimited_preserves (now : ℚ) (s : RateLimitState) :
    (isRateLimited now s).2.lastRequestTime = s.lastRequestTime ∧
    (isRateLimited now s).2.consecutiveErrors = s.consecutiveErrors ∧
    (isRateLimited now s).2.backoffMs = s.backoffMs := by
  unfold isRateLimited
  split
  · split <;> exact ⟨rfl, rfl, rfl⟩
  · exact ⟨rfl, rfl, rfl⟩

/-- C8, counterexample: the rate-limit state is not always left unchanged by
a non-429 failure.  With an expired cooldown on entry, the pre-attempt
`isRateLimited()` check clears `inCooldown` as a side effect, so after an
HTTP 500 the state differs from the state on entry. -/
theorem C8_counterexample :
    (PATCH "hello".data true 2000 1 (AiOutcome.http 500) ⟨0, 1, 1000, true⟩).2.inCooldown
        = false
    ∧ (⟨0, 1, 1000, true⟩ : RateLimitState).inCooldown = true
    ∧ (PATCH "hello".data true 2000 1 (AiOutcome.http 500) ⟨0, 1, 1000, true⟩).2
        ≠ (⟨0, 1, 1000, true⟩ : RateLimitState) := by
  have hemp : ("hello".data).isEmpty = false := by decide
  have hw : hasAnyWord submitWordsServer (lower "hello".data) = false := by decide
  have hR : isRateLimited 2000 ⟨0, 1, 1000, true⟩ = (false, ⟨0, 1, 1000, false⟩) := by
    simp only [isRateLimited]
    norm_num
  have hP : PATCH "hello".data true 2000 1 (AiOutcome.http 500) ⟨0, 1, 1000, true⟩
      = (.ok (processWithRegex "hello".data) false, ⟨0, 1, 1000, false⟩) := by
    simp [PATCH, hemp, hw, hR]
  rw [hP]
  refine ⟨rfl, rfl, ?_⟩
  simp

/-- C8, amended: when the remote call fails with a non-429 status or a
transport/timeout error, `lastRequestTime`, `consecutiveErrors` and
`backoffMs` are unchanged and the deterministic fallback is returned;
`inCooldown` is also unchanged except that the pre-attempt `isRateLimited()`
check may clear an already-expired cooldown.  Only HTTP 429 triggers
`recordFailure()`.  This holds for both the `PATCH` and the `POST` handler. -/
theorem C8_amended :
    (∀ (text : List Char) (now jitter : ℚ) (ai : AiOutcome) (s : RateLimitState),
      text ≠ [] →
      hasAnyWord submitWordsServer (lower text) = false →
      (isRateLimited now s).1 = false →
      (ai = AiOutcome.transport ∨ ∃ st, ai = AiOutcome.http st ∧ st ≠ 429) →
      PATCH text true now jitter ai s
          = (.ok (processWithRegex text) false, (isRateLimited now s).2)
        ∧ (PATCH text true now jitter ai s).2.lastRequestTime = s.lastRequestTime
        ∧ (PATCH text true now jitter ai s).2.consecutiveErrors = s.consecutiveErrors
        ∧ (PATCH text true now jitter ai s).2.backoffMs = s.backoffMs)
    ∧ (∀ (text : List Char) (now jitter : ℚ) (s : RateLimitState),
      text ≠ [] →
      hasAnyWord submitWordsServer (lower text) = false →
      (isRateLimited now s).1 = false →
      (PATCH text true now jitter (AiOutcome.http 429) s).2
        = handleRateLimit now jitter (isRateLimited now s).2)
    ∧ (∀ (text : List Char) (f : Field) (now jitter : ℚ) (ai : PostAiOutcome)
        (s : RateLimitState),
      text ≠ [] →
      (isRateLimited now s).1 = false →
      (ai = PostAiOutcome.transport ∨ ∃ st, ai = PostAiOutcome.http st ∧ st ≠ 429) →
      POST text (some f) true now jitter ai s
          = (.ok (basicTextCleaning text f) false, (isRateLimited now s).2)
        ∧ (POST text (some f) true now jitter ai s).2.lastRequestTime = s.lastRequestTime
        ∧ (POST text (some f) true now jitter ai s).2.consecutiveErrors = s.consecutiveErrors
        ∧ (POST text (some f) true now jitter ai s).2.backoffMs = s.backoffMs) := by
  refine ⟨?_, ?_, ?_⟩
  · intro text now jitter ai s hne hw hgate hfail
    have hemp : text.isEmpty = false := by
      cases text with | nil => exact absurd rfl hne | cons a t => rfl
    have hpre := isRateLimited_preserves now s
    have hP : PATCH text true now jitter ai s
        = (.ok (processWithRegex text) false, (isRateLimited now s).2) := by
      rcases hfail with rfl | ⟨st, rfl, hst⟩
      · simp [PATCH, hemp, hw, hgate]
      · simp [PATCH, hemp, hw, hgate, hst]
    rw [hP]
    exact ⟨rfl, hpre.1, hpre.2.1, hpre.2.2⟩
  · intro text now jitter s hne hw hgate
    have hemp : text.isEmpty = false := by
      cases text with | nil => exact absurd rfl hne | cons a t => rfl
    simp [PATCH, hemp, hw, hgate]
  · intro text f now jitter ai s hne hgate hfail
    have hemp : text.isEmpty = false := by
      cases text with | nil => exact absurd rfl hne | cons a t => rfl
    have hpre := isRateLimited_preserves now s
    have hP : POST text (some f) true now jitter ai s
        = (.ok (basicTextCleaning text f) false, (isRateLimited now s).2) := by
      rcases hfail with rfl | ⟨st, rfl, hst⟩
      · simp [POST, hemp, hgate]
      · simp [POST, hemp, hgate, hst]
    rw [hP]
    exact ⟨rfl, hpre.1, hpre.2.1, hpre.2.2⟩

/-- Witness for C8 with concrete inputs: a transport failure on `PATCH` and
an HTTP 500 on `POST`, both from the initial (cooldown-free) state. -/
theorem C8_amended_witness :
    ("hello".data ≠ ([] : List Char) ∧
      hasAnyWord submitWordsServer (lower "hello".data) = false ∧
      (isRateLimited 1 initialRateLimitState).1 = false) ∧
    (PATCH "hello".data true 1 1 AiOutcome.transport initialRateLimitState
        = (.ok (processWithRegex "hello".data) false,
            (isRateLimited 1 initialRateLimitState).2)) ∧
    (POST "hello".data (some Field.name) true 1 1 (PostAiOutcome.http 500)
        initialRateLimitState
      = (.ok (basicTextCleaning "hello".data Field.name) false,
          (isRateLimited 1 initialRateLimitState).2)) :=
  ⟨⟨by decide, by decide, rfl⟩,
   (C8_amended.1 "hello".data 1 1 .transport initialRateLimitState (by decide) (by decide)
      rfl (Or.inl rfl)).1,
   (C8_amended.2.2 "hello".data Field.name 1 1 (.http 500) initialRateLimitState (by decide)
      rfl (Or.inr ⟨500, rfl, by decide⟩)).1⟩

/-- C9, counterexample: on a 'no-speech' device error while listening, the
handler reports the error but also sets the listening flag to false — the
session does not stay in its current listening state. -/
theorem C9_counterexample :
    (onerror "no-speech".data true).1.isSome = true
    ∧ (onerror "no-speech".data true).2 = false
    ∧ (onerror "no-speech".data true).2 ≠ true := by
  decide

/-- C9, amended: on 'no-speech' and 'network' errors the handler reports an
error message and sets the listening flag to false regardless of its current
value; only 'aborted' reports nothing and leaves the flag unchanged. -/
theorem C9_amended :
    (∀ b : Bool, (onerror "no-speech".data b).1.isSome = true
        ∧ (onerror "no-speech".data b).2 = false)
    ∧ (∀ b : Bool, (onerror "network".data b).1.isSome = true
        ∧ (onerror "network".data b).2 = false)
    ∧ (∀ b : Bool, onerror "aborted".data b = (none, b)) := by
  refine ⟨fun b => ?_, fun b => ?_, fun b => ?_⟩ <;> cases b <;> exact (by decide)

/-- C10: when a submit intent is handled while all four form inputs are
empty or whitespace-only, nothing is persisted, no navigation happens, the
tracked form state is unchanged, and the "please provide some information"
error is reported. -/
theorem C10_empty_submit (form dom : FormSnapshot)
    (h1 : trimList dom.name = []) (h2 : trimList dom.email = [])
    (h3 : trimList dom.phone = []) (h4 : trimList dom.address = []) :
    handleVoiceSubmit form dom =
      { stored := none, navigated := false, errorMsg := some noDataError,
        formAfter := form } := by
  simp [handleVoiceSubmit, h1, h2, h3, h4]

/-- Witness for C10 with whitespace-only DOM inputs and a nonempty tracked
form state. -/
theorem C10_empty_submit_witness :
    (trimList "  ".data = [] ∧ trimList "".data = [] ∧ trimList " \t ".data = [] ∧
      trimList "\n".data = []) ∧
    handleVoiceSubmit ⟨"kept".data, [], [], []⟩ ⟨"  ".data, "".data, " \t ".data, "\n".data⟩ =
      { stored := none, navigated := false, errorMsg := some noDataError,
        formAfter := ⟨"kept".data, [], [], []⟩ } :=
  ⟨by decide,
   C10_empty_submit ⟨"kept".data, [], [], []⟩ ⟨"  ".data, "".data, " \t ".data, "\n".data⟩
     (by decide) (by decide) (by decide) (by decide)⟩

end VoicePipeline
